import Mathlib

/-!
Shallow embedding of the `linker` URL-shortening service core
(`src/slug.rs`, `src/handlers.rs`, `src/server/handlers.rs`).

Strings are modelled as `List Char`.  Handlers are modelled as pure
functions of their call-time environment (the cache-lookup result and the
store's reply), returning the handler result together with the ordered
trace of observable effects (counter increments, cache and store
operations) the call performs.
-/

namespace Linker

abbrev Str := List Char

/-! ## Slug (`src/slug.rs`) -/

/-- `pub const LENGTH: usize = 10;` -/
def LENGTH : Nat := 10

/-- The 62-symbol charset of `rand::distributions::Alphanumeric`
(`A-Z`, `a-z`, `0-9` in that order). -/
def alphanumericChars : Str :=
  String.toList "ABCDEFGHIJKLMNOPQRSTUVWXYZabcdefghijklmnopqrstuvwxyz0123456789"

/-- One draw of the `Alphanumeric` distribution: the raw random value is
reduced onto the 62-symbol charset. -/
def alphanumericSample (raw : Nat) : Char :=
  alphanumericChars.getD (raw % 62) 'A'

/-- `Slug` wraps `ArrayString<LENGTH>`: a string whose length is at most
the capacity `LENGTH`. -/
def Slug : Type := { s : Str // s.length ≤ LENGTH }

instance : DecidableEq Slug := fun a b =>
  Subtype.instDecidableEq a b

def Slug.val (s : Slug) : Str := Subtype.val s

/-- `Slug::from_rng`: draws `LENGTH` symbols from the `Alphanumeric`
distribution (one per random draw `rng i`) and pushes each into a fresh
`ArrayString`. -/
def Slug.from_rng (rng : Nat → Nat) : Slug :=
  ⟨(List.range LENGTH).map (fun i => alphanumericSample (rng i)), by
    simp⟩

/-- `impl TryFrom<&str> for Slug`: `ArrayString::from(str).map(Self)`.
`ArrayString::from` fails (with a `CapacityError`) exactly when the text
is longer than the capacity `LENGTH`; it performs no other check. -/
def Slug.tryFrom (s : Str) : Option Slug :=
  if h : s.length ≤ LENGTH then some ⟨s, h⟩ else none

/-! ## Transport status codes used by the handlers -/

/-- The `axum::http::StatusCode` values the registry handlers return on
failure: 404 NOT_FOUND, 409 CONFLICT, 503 SERVICE_UNAVAILABLE. -/
inductive Status
  | notFound
  | conflict
  | unavailable
  deriving DecidableEq, Repr

/-! ## Store and cache interaction outcomes -/

/-- Outcome of `SELECT url FROM links WHERE slug = $1` /
`SELECT slug FROM links WHERE url = $1` (`fetch_optional`). -/
inductive QueryOutcome
  | found (value : Str)
  | absent
  | err
  deriving DecidableEq, Repr

/-- Outcome of `INSERT INTO links ... .execute`, classified the way
`generate` classifies it via `e.as_database_error().and_then(|e| e.constraint())`:
success, `links_pkey` violation, `links_url_key` violation, or any other
error. -/
inductive InsertOutcome
  | ok
  | pkConflict
  | urlConflict
  | otherErr
  deriving DecidableEq, Repr

/-- One observable effect of a handler call, in program order:
counter increments on the metric families, cache operations, and store
round-trips (each store event carries the reply the handler observed). -/
inductive Event
  | incRequests (handler : Str) (slug : Option Slug)
  | incCacheHit (handler : Str) (slug : Option Slug)
  | incCacheMiss (handler : Str) (slug : Option Slug)
  | cacheGet (slug : Slug) (result : Option Str)
  | cacheInsert (slug : Slug) (value : Str)
  | storeSelectBySlug (slug : Slug) (outcome : QueryOutcome)
  | storeSelectByUrl (url : Str) (outcome : QueryOutcome)
  | storeInsert (slug : Slug) (url : Str) (outcome : InsertOutcome)
  deriving DecidableEq

/-- Is the event a store access (any SQL round-trip)? -/
def Event.isStoreAccess : Event → Bool
  | .storeSelectBySlug _ _ => true
  | .storeSelectByUrl _ _ => true
  | .storeInsert _ _ _ => true
  | _ => false

/-- Is the event an `http_requests` counter increment? -/
def Event.isIncRequests : Event → Bool
  | .incRequests _ _ => true
  | _ => false

/-- Is the event a `cache_hits` counter increment? -/
def Event.isIncCacheHit : Event → Bool
  | .incCacheHit _ _ => true
  | _ => false

/-- Is the event a `cache_misses` counter increment? -/
def Event.isIncCacheMiss : Event → Bool
  | .incCacheMiss _ _ => true
  | _ => false

/-- Is the event an insertion into the in-memory cache? -/
def Event.isCacheInsert : Event → Bool
  | .cacheInsert _ _ => true
  | _ => false

/-- Is the event an `INSERT INTO links` attempt? -/
def Event.isStoreInsert : Event → Bool
  | .storeInsert _ _ _ => true
  | _ => false

/-! ## `resolve` (`src/handlers.rs`) -/

/-- The call-time environment `resolve` runs against: the value the cache
lookup returns and the reply of the store query it would issue on a
miss. -/
structure ResolveEnv where
  cached : Option Str
  storeUrl : QueryOutcome

/-- `resolve` from `src/handlers.rs`: count the request, try the cache
(hit: count the hit and redirect immediately), otherwise count the miss,
query the store, and on a found row build the redirect, populate the
cache and return.  The result is the permanent-redirect target URL or a
status code, paired with the trace of effects. -/
def resolve (slug : Slug) (env : ResolveEnv) : Except Status Str × List Event :=
  let labels := (String.toList "resolve", some slug)
  match env.cached with
  | some url =>
      (Except.ok url,
        [Event.incRequests labels.1 labels.2,
         Event.cacheGet slug (some url),
         Event.incCacheHit labels.1 labels.2])
  | none =>
      let pre := [Event.incRequests labels.1 labels.2,
                  Event.cacheGet slug none,
                  Event.incCacheMiss labels.1 labels.2]
      match env.storeUrl with
      | .found url =>
          (Except.ok url,
            pre ++ [Event.storeSelectBySlug slug (.found url),
                    Event.cacheInsert slug url])
      | .absent =>
          (Except.error Status.notFound,
            pre ++ [Event.storeSelectBySlug slug .absent])
      | .err =>
          (Except.error Status.unavailable,
            pre ++ [Event.storeSelectBySlug slug .err])

/-! ## `reverse` (`src/handlers.rs`) -/

/-- `reverse` from `src/handlers.rs`: query the store by URL; on a found
row, re-parse the stored slug with `Slug::try_from(...).unwrap()` and
increment `http_requests` labelled with it, then return the slug text.
`none` models the `unwrap` panic on a stored slug longer than `LENGTH`;
every non-panicking run returns the result and trace. -/
def reverse (url : Str) (storeSlug : QueryOutcome) :
    Option (Except Status Str × List Event) :=
  match storeSlug with
  | .found s =>
      match Slug.tryFrom s with
      | some slug =>
          some (Except.ok s,
            [Event.storeSelectByUrl url (.found s),
             Event.incRequests (String.toList "reverse") (some slug)])
      | none => none
  | .absent =>
      some (Except.error Status.notFound,
        [Event.storeSelectByUrl url .absent])
  | .err =>
      some (Except.error Status.unavailable,
        [Event.storeSelectByUrl url .err])

/-! ## `generate` (`src/handlers.rs`) -/

/-- Result of `generate`: the full short-link body returned to the
caller (`success`, which also remembers the committed slug), or a status
code. -/
inductive GenResult
  | success (slug : Slug) (body : Str)
  | failure (status : Status)
  deriving DecidableEq

/-- The `loop` of `generate`, entered with the current `retries` count.
Iteration `retries` draws candidate `slugs retries` and observes insert
outcome `outcome retries` (the counter is incremented exactly once per
re-entry, so it indexes iterations).  On success the cache is populated
and `"http://{host}/{slug}"` is returned; a `links_pkey` conflict with
`retries < 2` increments `retries` and continues; a `links_url_key`
conflict yields CONFLICT; anything else yields SERVICE_UNAVAILABLE. -/
def generateLoop (host url : Str) (slugs : Nat → Slug) (outcome : Nat → InsertOutcome)
    (retries : Nat) : GenResult × List Event :=
  let slug := slugs retries
  let ev := Event.storeInsert slug url (outcome retries)
  match outcome retries with
  | .ok =>
      (GenResult.success slug
         (String.toList "http://" ++ host ++ '/' :: slug.val),
       [ev, Event.cacheInsert slug url])
  | .pkConflict =>
      if retries < 2 then
        let rest := generateLoop host url slugs outcome (retries + 1)
        (rest.1, ev :: rest.2)
      else
        (GenResult.failure Status.unavailable, [ev])
  | .urlConflict => (GenResult.failure Status.conflict, [ev])
  | .otherErr => (GenResult.failure Status.unavailable, [ev])
termination_by 2 - retries

/-- `generate` enters the loop with `retries = 0`. -/
def generate (host url : Str) (slugs : Nat → Slug) (outcome : Nat → InsertOutcome) :
    GenResult × List Event :=
  generateLoop host url slugs outcome 0

/-! ## Store-level model of `INSERT INTO links` -/

/-- A committed row of the `links` table
(`slug PRIMARY KEY, url UNIQUE, hidden`). -/
structure Row where
  slug : Slug
  url : Str
  hidden : Bool

/-- Classify an insert of `(slug, url)` against the committed table:
a row with the same slug fires the `links_pkey` constraint, else a row
with the same url fires the `links_url_key` constraint, else the insert
commits. -/
def classifyInsert (store : List Row) (slug : Slug) (url : Str) : InsertOutcome :=
  if store.any (fun r => r.slug = slug) then .pkConflict
  else if store.any (fun r => r.url = url) then .urlConflict
  else .ok

/-! ## `resolve`, `create_redirect` (`src/server/handlers.rs`) -/

/-- A transport-level response of the hidden-flag revision: either a
protocol-level permanent redirect (`Redirect::permanent`) or an HTML page
(`Html(...)`) whose body performs the navigation client-side. -/
inductive Response
  | permanentRedirect (url : Str)
  | htmlPage (body : Str)
  deriving DecidableEq

/-- `create_redirect` from `src/server/handlers.rs`: a non-hidden target
gets `Redirect::permanent(url)`, a hidden one gets an HTML page whose
inline script assigns `window.location.href` to the target URL. -/
def create_redirect (url : Str) (hidden : Bool) : Response :=
  if !hidden then
    Response.permanentRedirect url
  else
    Response.htmlPage
      (String.toList "<html><body><script>window.location.href=\x27"
        ++ url
        ++ String.toList "\x27;</script></body></html>")

/-- Call-time environment of the hidden-flag `resolve`: the cache holds
`(url, hidden)` pairs and the store query returns `url, hidden`. -/
structure ResolveHiddenEnv where
  cached : Option (Str × Bool)
  storeRow : Except Unit (Option (Str × Bool))

/-- `resolve` from `src/server/handlers.rs`: count the request; on a
cache hit return `create_redirect(url, hidden)` immediately; otherwise
count the miss, query `SELECT url, hidden FROM links WHERE slug = $1`,
and on a found row build the redirect from the row's `hidden` flag and
populate the cache. -/
def resolveHidden (slug : Slug) (env : ResolveHiddenEnv) :
    Except Status Response × List Event :=
  let req := Event.incRequests (String.toList "resolve") (some slug)
  match env.cached with
  | some (url, hidden) =>
      (Except.ok (create_redirect url hidden),
        [req, Event.cacheGet slug (some url)])
  | none =>
      let pre := [req, Event.cacheGet slug none,
                  Event.incCacheMiss (String.toList "resolve") none]
      match env.storeRow with
      | .ok (some (url, hidden)) =>
          (Except.ok (create_redirect url hidden),
            pre ++ [Event.storeSelectBySlug slug (.found url),
                    Event.cacheInsert slug url])
      | .ok none =>
          (Except.error Status.notFound,
            pre ++ [Event.storeSelectBySlug slug .absent])
      | .error _ =>
          (Except.error Status.unavailable,
            pre ++ [Event.storeSelectBySlug slug .err])

/-! ## Trace predicates -/

/-- The store confirmation an event carries, if any: a row successfully
fetched by slug, or an insert the store reported committed. -/
def confirmOf : Event → Option (Slug × Str)
  | Event.storeSelectBySlug s (.found u) => some (s, u)
  | Event.storeInsert s u .ok => some (s, u)
  | _ => none

/-- The cache insertion an event performs, if any. -/
def cacheInsertOf : Event → Option (Slug × Str)
  | Event.cacheInsert s u => some (s, u)
  | _ => none

/-- Check, scanning the trace left to right while remembering the store
confirmations seen so far, that every cache insertion `(slug, value)` is
preceded by a store confirmation of that same pair. -/
def cacheInsertsConfirmed : List Event → List (Slug × Str) → Bool
  | [], _ => true
  | e :: tr, acc =>
    match cacheInsertOf e with
    | some p => acc.contains p && cacheInsertsConfirmed tr acc
    | none =>
      match confirmOf e with
      | some p => cacheInsertsConfirmed tr (p :: acc)
      | none => cacheInsertsConfirmed tr acc

/-- The final path segment of a rendered short link: the characters
after the last `/`. -/
def lastSegment (s : Str) : Str :=
  (s.reverse.takeWhile (fun c => c ≠ '/')).reverse

/-! ## `metrics` (`src/handlers.rs`) -/

/-- `metrics` from `src/handlers.rs`: encode the registry; an encoding
error becomes SERVICE_UNAVAILABLE, success returns the buffer. -/
def metricsHandler (encoded : Except Unit Str) : Except Status Str :=
  match encoded with
  | .ok buffer => .ok buffer
  | .error _ => .error Status.unavailable

/-! ## Concrete values used to exercise the theorems -/

/-- A concrete well-formed slug. -/
def slugA : Slug := ⟨String.toList "abcde01234", by decide⟩

/-- A second concrete well-formed slug. -/
def slugB : Slug := ⟨String.toList "ZYXWV98765", by decide⟩

/-- A concrete destination URL. -/
def urlA : Str := String.toList "https://example.com/a"

/-- A concrete request host. -/
def hostA : Str := String.toList "sho.rt"

/-! ## Helper lemmas -/

/-- A randomly generated slug has exactly `LENGTH` characters. -/
theorem from_rng_length (rng : Nat → Nat) :
    (Slug.from_rng rng).val.length = LENGTH := by
  simp [Slug.from_rng, Slug.val]

/-- Every character of a randomly generated slug lies in the 62-symbol
alphanumeric alphabet. -/
theorem from_rng_mem_alphanumeric (rng : Nat → Nat) :
    ∀ c ∈ (Slug.from_rng rng).val, c ∈ alphanumericChars := by
  intro c hc
  simp only [Slug.from_rng, Slug.val, List.mem_map, List.mem_range] at hc
  obtain ⟨i, _, rfl⟩ := hc
  unfold alphanumericSample
  have h62 : alphanumericChars.length = 62 := by decide
  have hlt : rng i % 62 < alphanumericChars.length := by
    rw [h62]
    exact Nat.mod_lt _ (by omega)
  rw [List.getD_eq_getElem _ _ hlt]
  exact List.getElem_mem hlt

/-- `Slug.tryFrom` succeeds exactly on texts of at most `LENGTH`
characters. -/
theorem tryFrom_isSome_iff (s : Str) :
    (Slug.tryFrom s).isSome = true ↔ s.length ≤ LENGTH := by
  unfold Slug.tryFrom
  split
  · simpa using ‹s.length ≤ LENGTH›
  · simpa using ‹¬s.length ≤ LENGTH›

/-! ## Theorems -/

/-- C4 counterexample: `Slug` parsing does not require exactly `LENGTH`
characters — `Slug::try_from` accepts the 3-character text `"abc"`
(`ArrayString::from` only rejects texts longer than the capacity), so the
claim that parsing succeeds only on texts of exactly `LENGTH` (10)
characters is false. -/
theorem c4_parse_accepts_short_text :
    (Slug.tryFrom (String.toList "abc")).isSome = true ∧
    (String.toList "abc").length ≠ LENGTH := by
  constructor
  · decide
  · decide

/-- C4 (amended): `Slug` parsing succeeds exactly when the text has at
most `LENGTH` (10) characters, with no alphabet restriction; every slug
produced by random generation has exactly `LENGTH` characters, each drawn
from the 62-symbol alphanumeric alphabet. -/
theorem c4_slug_parse_and_generation_invariants :
    (∀ s : Str, (Slug.tryFrom s).isSome = true ↔ s.length ≤ LENGTH) ∧
    (∀ rng : Nat → Nat,
      (Slug.from_rng rng).val.length = LENGTH ∧
      ∀ c ∈ (Slug.from_rng rng).val, c ∈ alphanumericChars) :=
  ⟨tryFrom_isSome_iff,
   fun rng => ⟨from_rng_length rng, from_rng_mem_alphanumeric rng⟩⟩

/-- C4 (amended) witness: the identity random stream draws a slug whose
first character is in the alphabet, and a concrete 2-character text
parses. -/
theorem c4_witness :
    'A' ∈ alphanumericChars ∧ (Slug.tryFrom (String.toList "ab")).isSome = true :=
  ⟨(c4_slug_parse_and_generation_invariants.2 (fun j => j)).2 'A' (by decide),
   (c4_slug_parse_and_generation_invariants.1 (String.toList "ab")).mpr (by decide)⟩

/-- C7: on a cache hit, `resolve` records a cache-hit observation,
returns the cached target, and performs no store access of any kind. -/
theorem c7_cache_hit_no_store_access (slug : Slug) (env : ResolveEnv) (url : Str)
    (h : env.cached = some url) :
    (resolve slug env).1 = Except.ok url ∧
    Event.incCacheHit (String.toList "resolve") (some slug) ∈ (resolve slug env).2 ∧
    ∀ e ∈ (resolve slug env).2, e.isStoreAccess = false := by
  unfold resolve
  rw [h]
  refine ⟨rfl, by simp, ?_⟩
  intro e he
  simp only [List.mem_cons, List.not_mem_nil, or_false] at he
  rcases he with rfl | rfl | rfl <;> rfl

/-- C7 witness: a concrete cache-hit call returns the cached URL. -/
theorem c7_witness :
    (resolve slugA ⟨some urlA, QueryOutcome.absent⟩).1 = Except.ok urlA :=
  (c7_cache_hit_no_store_access slugA ⟨some urlA, QueryOutcome.absent⟩ urlA rfl).1

/-- C6: on a cache miss, `resolve` returns the target and populates the
cache when the store finds a row, fails with NotFound and inserts
nothing into the cache when the row is absent, and fails with
Unavailable (never NotFound) when the store query errors. -/
theorem c6_resolve_miss_store_outcomes (slug : Slug) (env : ResolveEnv)
    (h : env.cached = none) :
    (∀ url, env.storeUrl = QueryOutcome.found url →
        (resolve slug env).1 = Except.ok url ∧
        Event.cacheInsert slug url ∈ (resolve slug env).2) ∧
    (env.storeUrl = QueryOutcome.absent →
        (resolve slug env).1 = Except.error Status.notFound ∧
        ∀ e ∈ (resolve slug env).2, e.isCacheInsert = false) ∧
    (env.storeUrl = QueryOutcome.err →
        (resolve slug env).1 = Except.error Status.unavailable) := by
  unfold resolve
  rw [h]
  refine ⟨fun url hu => ?_, fun hu => ?_, fun hu => ?_⟩
  · rw [hu]
    exact ⟨rfl, by simp⟩
  · rw [hu]
    refine ⟨rfl, ?_⟩
    intro e he
    simp only [List.append_assoc, List.mem_append, List.mem_cons,
      List.not_mem_nil, or_false] at he
    rcases he with (rfl | rfl | rfl) | rfl <;> rfl
  · rw [hu]

/-- C6 witness: a concrete miss-then-found call returns the stored URL
and populates the cache. -/
theorem c6_witness :
    (resolve slugA ⟨none, QueryOutcome.found urlA⟩).1 = Except.ok urlA ∧
    Event.cacheInsert slugA urlA ∈ (resolve slugA ⟨none, QueryOutcome.found urlA⟩).2 :=
  (c6_resolve_miss_store_outcomes slugA ⟨none, QueryOutcome.found urlA⟩ rfl).1 urlA rfl

/-- In every trace of the `generate` loop, each cache insertion is
preceded by the store confirming the corresponding insert (proved for
any starting accumulator, by induction on the remaining retry budget). -/
theorem generateLoop_cache_confirmed (host url : Str) (slugs : Nat → Slug)
    (outcome : Nat → InsertOutcome) :
    ∀ k r, 2 - r ≤ k → ∀ acc,
      cacheInsertsConfirmed (generateLoop host url slugs outcome r).2 acc = true := by
  intro k
  induction k with
  | zero =>
      intro r hr acc
      rw [generateLoop]
      rcases ho : outcome r with _ | _ | _ | _ <;>
        simp [cacheInsertsConfirmed, cacheInsertOf, confirmOf]
      have hnot : ¬r < 2 := by omega
      simp [hnot, cacheInsertsConfirmed, cacheInsertOf, confirmOf]
  | succ k ih =>
      intro r hr acc
      rw [generateLoop]
      rcases ho : outcome r with _ | _ | _ | _ <;>
        simp [cacheInsertsConfirmed, cacheInsertOf, confirmOf]
      by_cases hlt : r < 2
      · simp only [hlt, if_true]
        simpa [cacheInsertsConfirmed, cacheInsertOf, confirmOf] using
          ih (r + 1) (by omega) acc
      · simp [hlt, cacheInsertsConfirmed, cacheInsertOf, confirmOf]

/-- C2: in `create` and in `resolve` (both the plain and the hidden-flag
revision), a cache entry is inserted only after the store has confirmed
the corresponding row — a successful row fetch in `resolve`, a
successfully committed insert in `create`; no path inserts into the
cache without store confirmation. -/
theorem c2_cache_populated_only_after_store_confirmation :
    (∀ slug env, cacheInsertsConfirmed (resolve slug env).2 [] = true) ∧
    (∀ slug env, cacheInsertsConfirmed (resolveHidden slug env).2 [] = true) ∧
    (∀ host url slugs outcome,
        cacheInsertsConfirmed (generate host url slugs outcome).2 [] = true) := by
  refine ⟨fun slug env => ?_, fun slug env => ?_, fun host url slugs outcome => ?_⟩
  · obtain ⟨c, st⟩ := env
    rcases c with _ | u
    · rcases st with u | _ | _ <;>
        simp [resolve, cacheInsertsConfirmed, cacheInsertOf, confirmOf]
    · simp [resolve, cacheInsertsConfirmed, cacheInsertOf, confirmOf]
  · obtain ⟨c, st⟩ := env
    rcases c with _ | p
    · rcases st with _ | r
      · simp [resolveHidden, cacheInsertsConfirmed, cacheInsertOf, confirmOf]
      · rcases r with _ | p <;>
          simp [resolveHidden, cacheInsertsConfirmed, cacheInsertOf, confirmOf]
    · simp [resolveHidden, cacheInsertsConfirmed, cacheInsertOf, confirmOf]
  · exact generateLoop_cache_confirmed host url slugs outcome 2 0 (by omega) []

/-- The number of insert attempts the `generate` loop performs from
retry count `r` is at most the remaining budget plus one. -/
theorem generateLoop_insert_attempts (host url : Str) (slugs : Nat → Slug)
    (outcome : Nat → InsertOutcome) :
    ∀ k r, 2 - r ≤ k →
      (generateLoop host url slugs outcome r).2.countP Event.isStoreInsert ≤ k + 1 := by
  intro k
  induction k with
  | zero =>
      intro r hr
      rw [generateLoop]
      rcases ho : outcome r with _ | _ | _ | _ <;>
        simp [List.countP_cons, Event.isStoreInsert]
      have hnot : ¬r < 2 := by omega
      simp [hnot, List.countP_cons, Event.isStoreInsert]
  | succ k ih =>
      intro r hr
      rw [generateLoop]
      rcases ho : outcome r with _ | _ | _ | _ <;>
        simp [List.countP_cons, Event.isStoreInsert]
      by_cases hlt : r < 2
      · have := ih (r + 1) (by omega)
        simp [hlt, List.countP_cons, Event.isStoreInsert]
        omega
      · simp [hlt, List.countP_cons, Event.isStoreInsert]

/-- C1: `create` performs at most 3 insert attempts in total (at most 2
re-generations after the first candidate), and when all three attempts
hit the primary-key constraint the conflict is surfaced as
SERVICE_UNAVAILABLE — the loop always terminates within the bound. -/
theorem c1_create_retry_bound (host url : Str) (slugs : Nat → Slug)
    (outcome : Nat → InsertOutcome) :
    (generate host url slugs outcome).2.countP Event.isStoreInsert ≤ 3 ∧
    ((∀ i, i < 3 → outcome i = InsertOutcome.pkConflict) →
      (generate host url slugs outcome).1 = GenResult.failure Status.unavailable) := by
  constructor
  · exact generateLoop_insert_attempts host url slugs outcome 2 0 (by omega)
  · intro h
    unfold generate
    rw [generateLoop, h 0 (by omega)]
    simp only [Nat.zero_lt_succ, if_true, Nat.zero_add, reduceIte]
    rw [generateLoop, h 1 (by omega)]
    simp only [reduceIte]
    rw [generateLoop, h 2 (by omega)]
    simp

/-- C1 witness: with every insert attempt hitting the primary-key
constraint, a concrete `create` call fails with SERVICE_UNAVAILABLE. -/
theorem c1_witness :
    (generate hostA urlA (fun _ => slugA) (fun _ => InsertOutcome.pkConflict)).1
      = GenResult.failure Status.unavailable :=
  (c1_create_retry_bound hostA urlA (fun _ => slugA)
      (fun _ => InsertOutcome.pkConflict)).2 (fun _ _ => rfl)

/-- If no insert attempt ever succeeds, the `generate` loop never
returns a slug. -/
theorem generateLoop_no_ok_never_success (host url : Str) (slugs : Nat → Slug)
    (outcome : Nat → InsertOutcome) (hno : ∀ i, outcome i ≠ InsertOutcome.ok) :
    ∀ k r, 2 - r ≤ k → ∀ s body,
      (generateLoop host url slugs outcome r).1 ≠ GenResult.success s body := by
  intro k
  induction k with
  | zero =>
      intro r hr s body
      rw [generateLoop]
      rcases ho : outcome r with _ | _ | _ | _
      · exact absurd ho (hno r)
      · have hnot : ¬r < 2 := by omega
        simp [hnot]
      · simp
      · simp
  | succ k ih =>
      intro r hr s body
      rw [generateLoop]
      rcases ho : outcome r with _ | _ | _ | _
      · exact absurd ho (hno r)
      · by_cases hlt : r < 2
        · simpa [hlt] using ih (r + 1) (by omega) s body
        · simp [hlt]
      · simp
      · simp

/-- An insert of a URL already present in the table never commits: it
fires either the primary-key or the unique-URL constraint. -/
theorem classifyInsert_ne_ok_of_url_present (store : List Row) (slug : Slug) (url : Str)
    (h : store.any (fun r => r.url = url) = true) :
    classifyInsert store slug url ≠ InsertOutcome.ok := by
  unfold classifyInsert
  by_cases hpk : store.any (fun r => decide (r.slug = slug)) = true
  · simp [hpk]
  · simp [hpk, h]

/-- C5: a unique-URL constraint violation makes `create` fail
immediately with CONFLICT — a single insert attempt, no retry, and no
cache operation of any kind in the trace; and against a table already
holding the URL, `create` never returns a slug, whatever candidates are
drawn. -/
theorem c5_url_conflict_immediate (host url : Str) (slugs : Nat → Slug)
    (outcome : Nat → InsertOutcome) (store : List Row) :
    (outcome 0 = InsertOutcome.urlConflict →
      (generate host url slugs outcome).1 = GenResult.failure Status.conflict ∧
      (generate host url slugs outcome).2
        = [Event.storeInsert (slugs 0) url InsertOutcome.urlConflict]) ∧
    (store.any (fun r => r.url = url) = true →
      ∀ s body,
        (generate host url slugs (fun i => classifyInsert store (slugs i) url)).1
          ≠ GenResult.success s body) := by
  constructor
  · intro h0
    unfold generate
    rw [generateLoop, h0]
    exact ⟨rfl, rfl⟩
  · intro hurl s body
    exact generateLoop_no_ok_never_success host url slugs _
      (fun i => classifyInsert_ne_ok_of_url_present store (slugs i) url hurl)
      2 0 (by omega) s body

/-- C5 witness: a concrete `create` whose insert fires the unique-URL
constraint returns CONFLICT. -/
theorem c5_witness :
    (generate hostA urlA (fun _ => slugA) (fun _ => InsertOutcome.urlConflict)).1
      = GenResult.failure Status.conflict :=
  ((c5_url_conflict_immediate hostA urlA (fun _ => slugA)
      (fun _ => InsertOutcome.urlConflict) []).1 rfl).1

/-- The `generate` loop never increments the `http_requests` counter. -/
theorem generateLoop_no_request_increment (host url : Str) (slugs : Nat → Slug)
    (outcome : Nat → InsertOutcome) :
    ∀ k r, 2 - r ≤ k →
      (generateLoop host url slugs outcome r).2.countP Event.isIncRequests = 0 := by
  intro k
  induction k with
  | zero =>
      intro r hr
      rw [generateLoop]
      rcases ho : outcome r with _ | _ | _ | _ <;>
        simp [List.countP_cons, Event.isIncRequests]
      have hnot : ¬r < 2 := by omega
      simp [hnot, List.countP_cons, Event.isIncRequests]
  | succ k ih =>
      intro r hr
      rw [generateLoop]
      rcases ho : outcome r with _ | _ | _ | _ <;>
        simp [List.countP_cons, Event.isIncRequests]
      by_cases hlt : r < 2
      · simpa [hlt, List.countP_cons, Event.isIncRequests] using
          ih (r + 1) (by omega)
      · simp [hlt, List.countP_cons, Event.isIncRequests]

/-- C3 counterexample: a concrete successful `create` call performs no
`http_requests` counter increment at all (`generate` never touches the
request counter), so the claim that every registry operation increments
a request counter on every call is false. -/
theorem c3_create_counts_no_request :
    (generate hostA urlA (fun _ => slugA) (fun _ => InsertOutcome.ok)).2.countP
      Event.isIncRequests = 0 := by
  unfold generate
  rw [generateLoop]
  simp [List.countP_cons, Event.isIncRequests]

/-- C3 (amended): `resolve` increments the request counter exactly once
on every call regardless of outcome, and exactly one of the cache-hit
and cache-miss counters; `reverse` increments the request counter
(labelled by the slug the store returned) only when a row is found, and
increments nothing on NotFound or store error; `create` increments no
request counter at all. -/
theorem c3_request_counter_per_operation (slug : Slug) (env : ResolveEnv) :
    ((resolve slug env).2.countP Event.isIncRequests = 1 ∧
     (resolve slug env).2.countP Event.isIncCacheHit
       + (resolve slug env).2.countP Event.isIncCacheMiss = 1) ∧
    (∀ url q res tr, reverse url q = some (res, tr) →
      tr.countP Event.isIncRequests
        = match res with
          | Except.ok _ => 1
          | Except.error _ => 0) ∧
    (∀ host u slugs outcome,
      (generate host u slugs outcome).2.countP Event.isIncRequests = 0) := by
  refine ⟨?_, fun url q res tr h => ?_, fun host u slugs outcome => ?_⟩
  · obtain ⟨c, st⟩ := env
    rcases c with _ | u
    · rcases st with u | _ | _ <;>
        simp [resolve, List.countP_cons,
          Event.isIncRequests, Event.isIncCacheHit, Event.isIncCacheMiss]
    · simp [resolve, List.countP_cons,
        Event.isIncRequests, Event.isIncCacheHit, Event.isIncCacheMiss]
  · rcases q with s | _ | _
    · rcases hp : Slug.tryFrom s with _ | sl
      · rw [reverse, hp] at h
        exact absurd h (by simp)
      · rw [reverse, hp] at h
        obtain ⟨rfl, rfl⟩ := Prod.mk.injEq .. ▸ Option.some.inj h
        simp [List.countP_cons, Event.isIncRequests]
    · rw [reverse] at h
      obtain ⟨rfl, rfl⟩ := Prod.mk.injEq .. ▸ Option.some.inj h
      simp [List.countP_cons, Event.isIncRequests]
    · rw [reverse] at h
      obtain ⟨rfl, rfl⟩ := Prod.mk.injEq .. ▸ Option.some.inj h
      simp [List.countP_cons, Event.isIncRequests]
  · exact generateLoop_no_request_increment host u slugs outcome 2 0 (by omega)

/-- C3 (amended) witness: a concrete found-row `reverse` call increments
the request counter exactly once. -/
theorem c3_witness :
    (List.countP Event.isIncRequests
      [Event.storeSelectByUrl urlA (QueryOutcome.found slugA.val),
       Event.incRequests (String.toList "reverse") (some slugA)]) = 1 :=
  (c3_request_counter_per_operation slugA ⟨none, QueryOutcome.absent⟩).2.1
    urlA (QueryOutcome.found slugA.val) (Except.ok slugA.val) _ (by rw [reverse]; rfl)

/-- C8: the registry converts failures to status codes instead of
panicking: `reverse` returns a value (rather than hitting the `unwrap`
panic) whenever every stored slug it can observe has at most `LENGTH`
characters, every error it returns is one of NotFound, Conflict or
Unavailable, and a metrics-snapshot encoding failure becomes
SERVICE_UNAVAILABLE. -/
theorem c8_registry_never_panics (url : Str) (q : QueryOutcome)
    (h : ∀ s, q = QueryOutcome.found s → s.length ≤ LENGTH) :
    (reverse url q).isSome = true ∧
    (∀ res tr, reverse url q = some (res, tr) →
      ∀ st, res = Except.error st →
        st = Status.notFound ∨ st = Status.conflict ∨ st = Status.unavailable) ∧
    (∀ enc : Except Unit Str,
      metricsHandler enc = Except.error Status.unavailable
        ∨ ∃ b, metricsHandler enc = Except.ok b) := by
  refine ⟨?_, fun res tr _ st _ => ?_, fun enc => ?_⟩
  · rcases hq : q with s | _ | _
    · have hs := h s hq
      rw [reverse]
      rcases hp : Slug.tryFrom s with _ | sl
      · have hsome := (tryFrom_isSome_iff s).mpr hs
        rw [hp] at hsome
        simp at hsome
      · simp
    · simp [reverse]
    · simp [reverse]
  · rcases st <;> simp
  · rcases enc with e | b
    · exact Or.inl rfl
    · exact Or.inr ⟨b, rfl⟩

/-- C8 witness: a concrete `reverse` call whose store row is a
10-character slug does not panic. -/
theorem c8_witness :
    (reverse urlA (QueryOutcome.found (String.toList "abcde01234"))).isSome = true :=
  (c8_registry_never_panics urlA (QueryOutcome.found (String.toList "abcde01234"))
    (fun s hs => by
      injection hs with h2
      subst h2
      decide)).1

/-- C9: the hidden flag, and it alone, selects the redirect kind: both
the cache-hit and the store-fetch paths of the hidden-flag `resolve`
answer with `create_redirect url hidden`, which is a protocol-level
permanent redirect exactly when the flag is false and a client-side HTML
redirect page exactly when it is true. -/
theorem c9_hidden_flag_selects_redirect_kind (slug : Slug) (env : ResolveHiddenEnv) :
    (∀ url hidden, env.cached = some (url, hidden) →
      (resolveHidden slug env).1 = Except.ok (create_redirect url hidden)) ∧
    (env.cached = none →
      ∀ url hidden, env.storeRow = Except.ok (some (url, hidden)) →
        (resolveHidden slug env).1 = Except.ok (create_redirect url hidden)) ∧
    (∀ url, create_redirect url false = Response.permanentRedirect url) ∧
    (∀ url, create_redirect url true
      = Response.htmlPage
          (String.toList "<html><body><script>window.location.href=\x27"
            ++ url ++ String.toList "\x27;</script></body></html>")) := by
  refine ⟨fun url hidden hc => ?_, fun hc url hidden hs => ?_,
    fun url => rfl, fun url => rfl⟩
  · unfold resolveHidden
    rw [hc]
  · unfold resolveHidden
    rw [hc, hs]

/-- C9 witness: a concrete cache hit on a hidden entry renders the
client-side redirect. -/
theorem c9_witness :
    (resolveHidden slugA ⟨some (urlA, true), Except.ok none⟩).1
      = Except.ok (create_redirect urlA true) :=
  (c9_hidden_flag_selects_redirect_kind slugA ⟨some (urlA, true), Except.ok none⟩).1
    urlA true rfl

/-- A successful `generate` returns one of the drawn candidates and the
body `"http://" ++ host ++ "/" ++ slug`. -/
theorem generateLoop_success_shape (host url : Str) (slugs : Nat → Slug)
    (outcome : Nat → InsertOutcome) :
    ∀ k r s body, 2 - r ≤ k →
      (generateLoop host url slugs outcome r).1 = GenResult.success s body →
      (∃ i, s = slugs i) ∧
      body = String.toList "http://" ++ host ++ '/' :: s.val := by
  intro k
  induction k with
  | zero =>
      intro r s body hr h
      rw [generateLoop] at h
      rcases ho : outcome r with _ | _ | _ | _ <;> rw [ho] at h
      · simp only [GenResult.success.injEq] at h
        obtain ⟨h1, h2⟩ := h
        subst h1
        subst h2
        exact ⟨⟨r, rfl⟩, rfl⟩
      · have hnot : ¬r < 2 := by omega
        simp [hnot] at h
      · simp at h
      · simp at h
  | succ k ih =>
      intro r s body hr h
      rw [generateLoop] at h
      rcases ho : outcome r with _ | _ | _ | _ <;> rw [ho] at h
      · simp only [GenResult.success.injEq] at h
        obtain ⟨h1, h2⟩ := h
        subst h1
        subst h2
        exact ⟨⟨r, rfl⟩, rfl⟩
      · by_cases hlt : r < 2
        · exact ih (r + 1) s body (by omega) (by simpa [hlt] using h)
        · simp [hlt] at h
      · simp at h
      · simp at h

/-- `takeWhile` passes over a block whose elements all satisfy the
predicate. -/
theorem takeWhile_append_sat {α : Type} (p : α → Bool) :
    ∀ (l l' : List α), (∀ a ∈ l, p a = true) →
      List.takeWhile p (l ++ l') = l ++ List.takeWhile p l'
  | [], l', _ => by simp
  | a :: l, l', h => by
      have ha : p a = true := h a (by simp)
      simp [List.takeWhile_cons, ha,
        takeWhile_append_sat p l l' (fun b hb => h b (by simp [hb]))]

/-- The final path segment of `xs ++ "/" ++ t` is `t` when `t` holds no
slash. -/
theorem lastSegment_append (xs t : Str) (h : '/' ∉ t) :
    lastSegment (xs ++ '/' :: t) = t := by
  unfold lastSegment
  rw [List.reverse_append, List.reverse_cons, List.append_assoc]
  have hall : ∀ a ∈ t.reverse, (decide (a ≠ '/')) = true := by
    intro a ha
    simp only [List.mem_reverse] at ha
    simp only [decide_eq_true_eq]
    intro hc
    exact h (hc ▸ ha)
  rw [takeWhile_append_sat _ t.reverse _ hall]
  simp [List.takeWhile_cons]

/-- C10: a successful `create` returns not the bare slug but the full
short URL `"http://{host}/{slug}"`, and the committed slug (drawn by
`Slug::from_rng`, hence slash-free) is recoverable as the final path
segment of the returned string. -/
theorem c10_create_returns_full_short_url (host u : Str) (seeds : Nat → Nat → Nat)
    (outcome : Nat → InsertOutcome) (s : Slug) (body : Str)
    (h : (generate host u (fun i => Slug.from_rng (seeds i)) outcome).1
          = GenResult.success s body) :
    body = String.toList "http://" ++ host ++ '/' :: s.val ∧
    lastSegment body = s.val := by
  obtain ⟨⟨i, hs⟩, hbody⟩ :=
    generateLoop_success_shape host u (fun i => Slug.from_rng (seeds i)) outcome
      2 0 s body (by omega) h
  refine ⟨hbody, ?_⟩
  rw [hbody]
  have hslash : '/' ∉ s.val := by
    rw [hs]
    intro hmem
    have hin := from_rng_mem_alphanumeric (seeds i) '/' hmem
    exact absurd hin (by decide)
  have hl := lastSegment_append (String.toList "http://" ++ host) s.val hslash
  rw [List.append_assoc] at hl
  exact hl

/-- C10 witness: a concrete first-attempt success returns the rendered
short URL whose final path segment is the committed slug. -/
theorem c10_witness :
    (generate hostA urlA (fun _ => Slug.from_rng (fun j => j)) (fun _ => InsertOutcome.ok)).1
        = GenResult.success (Slug.from_rng (fun j => j))
            (String.toList "http://" ++ hostA ++ '/' :: (Slug.from_rng (fun j => j)).val) ∧
    lastSegment (String.toList "http://" ++ hostA ++ '/' :: (Slug.from_rng (fun j => j)).val)
        = (Slug.from_rng (fun j => j)).val := by
  have hsucc :
      (generate hostA urlA (fun _ => Slug.from_rng (fun j => j)) (fun _ => InsertOutcome.ok)).1
        = GenResult.success (Slug.from_rng (fun j => j))
            (String.toList "http://" ++ hostA ++ '/' :: (Slug.from_rng (fun j => j)).val) := by
    unfold generate
    rw [generateLoop]
  exact ⟨hsucc,
    (c10_create_returns_full_short_url hostA urlA (fun _ j => j)
      (fun _ => InsertOutcome.ok) (Slug.from_rng (fun j => j)) _ hsucc).2⟩

end Linker
